import Mathlib

/-!
Verification of the LLM-AIXI agent loop (Esalpekar/AIXI_Approximator).

Shallow embedding of the Python sources:
  - `src/agent/models.py`      : `Action`, `Percept`, `AgentState`
  - `src/agent/agent.py`       : `Ideator._parse_response`, `Ideator.choose_action`
  - `src/environment/orchestrator.py` : routing, `process_action`, `validate_action`
  - `src/environment/judge.py` : evaluation-prompt construction, `evaluate_action`
  - `src/subenvironments/file_system.py` : path sandboxing and file actions
  - `src/main.py`              : the main cycle loop

Python strings are modelled as `List Char`; machine-external effects (the two
LLMs, the wall clock, user interrupts) are modelled by oracles supplied as
explicit parameters.  File contents live in an explicit association list.
-/

set_option maxHeartbeats 1000000
set_option maxRecDepth 100000

namespace Aixi

/-- Convert a Lean string literal to the `List Char` representation used
throughout this development. -/
def cs (s : String) : List Char := s.toList

/-- Python `\s` whitespace class (`str.strip` / regex `\s`): space, tab,
newline, carriage return, form feed, vertical tab. -/
def isPySpace (c : Char) : Bool :=
  c = ' ' || c = '\t' || c = '\n' || c = '\x0d' || c = '\x0c' || c = '\x0b'

/-- Python `str.strip()`: remove leading and trailing whitespace. -/
def pyStrip (l : List Char) : List Char :=
  ((l.dropWhile isPySpace).reverse.dropWhile isPySpace).reverse

/-- `pat.isPrefixOf l` as an explicit recursive function. -/
def leadsWith : List Char → List Char → Bool
  | [], _ => true
  | _ :: _, [] => false
  | p :: ps, c :: cs => p = c && leadsWith ps cs

/-- Does `pat` occur as a contiguous substring of `l`?  (Python `in`.) -/
def containsSub (pat : List Char) : List Char → Bool
  | [] => leadsWith pat []
  | c :: rest => leadsWith pat (c :: rest) || containsSub pat rest

/-- Suffix of `l` after the first (leftmost) occurrence of `pat`; `none` when
`pat` does not occur.  This is the shape shared by `re.search` of a literal
followed by taking everything after the match. -/
def splitAfterFirst (pat : List Char) : List Char → Option (List Char)
  | [] => if leadsWith pat [] then some [] else none
  | c :: rest =>
      if leadsWith pat (c :: rest) then some (List.drop pat.length (c :: rest))
      else splitAfterFirst pat rest

/-- Everything before the first occurrence of `pat` (the whole list when `pat`
does not occur). -/
def takeBeforeFirst (pat : List Char) : List Char → List Char
  | [] => []
  | c :: rest =>
      if leadsWith pat (c :: rest) then []
      else c :: takeBeforeFirst pat rest

/-- The longest prefix of the current line (regex `.` = any char but `\n`). -/
def takeLine (l : List Char) : List Char := l.takeWhile (fun c => c ≠ '\n')

/-!  ### datetime

`datetime.datetime` restricted to what `models.py` uses: naive timestamps,
`isoformat` rendering and `fromisoformat` parsing.  Modelled from the CPython
`datetime` library: `isoformat()` prints `YYYY-MM-DDTHH:MM:SS` followed by
`.ffffff` exactly when the microsecond field is nonzero, and `fromisoformat`
accepts that output grammar (the model restricts `fromisoformat` to the
`isoformat` output format; timezone-aware values do not occur in this repo). -/

structure DateTime where
  year : Nat
  month : Nat
  day : Nat
  hour : Nat
  minute : Nat
  second : Nat
  microsecond : Nat
deriving DecidableEq, Repr

/-- Field ranges enforced by the `datetime` constructor. -/
def DateTime.valid (d : DateTime) : Prop :=
  1 ≤ d.year ∧ d.year ≤ 9999 ∧ 1 ≤ d.month ∧ d.month ≤ 12 ∧
  1 ≤ d.day ∧ d.day ≤ 31 ∧ d.hour ≤ 23 ∧ d.minute ≤ 59 ∧
  d.second ≤ 59 ∧ d.microsecond ≤ 999999

instance (d : DateTime) : Decidable d.valid := by
  unfold DateTime.valid; infer_instance

/-- One decimal digit character. -/
def digitChar (d : Nat) : Char :=
  match d with
  | 0 => '0' | 1 => '1' | 2 => '2' | 3 => '3' | 4 => '4'
  | 5 => '5' | 6 => '6' | 7 => '7' | 8 => '8' | _ => '9'

/-- Decimal digit value of a character, if any. -/
def charDigit (c : Char) : Option Nat :=
  if '0' ≤ c ∧ c ≤ '9' then some (c.toNat - 48) else none

/-- `n` left-padded with zeros to exactly `w` decimal digits. -/
def padNum : Nat → Nat → List Char
  | 0, _ => []
  | w + 1, n => digitChar (n / 10 ^ w) :: padNum w (n % 10 ^ w)

/-- Read exactly `w` decimal digits off the front of a list, accumulating the
value; return the value and the remainder. -/
def readNum : Nat → Nat → List Char → Option (Nat × List Char)
  | 0, acc, l => some (acc, l)
  | _ + 1, _, [] => none
  | w + 1, acc, c :: rest =>
      match charDigit c with
      | some d => readNum w (acc * 10 + d) rest
      | none => none

/-- `datetime.isoformat()` (naive values). -/
def DateTime.iso (d : DateTime) : List Char :=
  padNum 4 d.year ++ '-' :: padNum 2 d.month ++ '-' :: padNum 2 d.day ++
  'T' :: padNum 2 d.hour ++ ':' :: padNum 2 d.minute ++ ':' :: padNum 2 d.second ++
  (if d.microsecond = 0 then [] else '.' :: padNum 6 d.microsecond)

/-- Expect a single character at the front. -/
def expectChar (c : Char) : List Char → Option (List Char)
  | [] => none
  | x :: rest => if x = c then some rest else none

/-- `datetime.fromisoformat` on the `isoformat` output grammar. -/
def DateTime.fromIso (l : List Char) : Option DateTime :=
  match readNum 4 0 l with
  | none => none
  | some (y, l1) =>
  match expectChar '-' l1 with
  | none => none
  | some l2 =>
  match readNum 2 0 l2 with
  | none => none
  | some (mo, l3) =>
  match expectChar '-' l3 with
  | none => none
  | some l4 =>
  match readNum 2 0 l4 with
  | none => none
  | some (dd, l5) =>
  match expectChar 'T' l5 with
  | none => none
  | some l6 =>
  match readNum 2 0 l6 with
  | none => none
  | some (hh, l7) =>
  match expectChar ':' l7 with
  | none => none
  | some l8 =>
  match readNum 2 0 l8 with
  | none => none
  | some (mi, l9) =>
  match expectChar ':' l9 with
  | none => none
  | some l10 =>
  match readNum 2 0 l10 with
  | none => none
  | some (ss, l11) =>
  match l11 with
  | [] => some ⟨y, mo, dd, hh, mi, ss, 0⟩
  | c :: rest =>
      if c = '.' then
        match readNum 6 0 rest with
        | some (us, []) => some ⟨y, mo, dd, hh, mi, ss, us⟩
        | _ => none
      else none

/-!  ### JSON  (Python `json.loads`)

Modelled from the CPython `json` library as used by this repo: `json.loads`
on a text payload, default options.  Numbers without fraction or exponent
become Python `int`; numbers with either become `float`, whose value this
model does not evaluate — the lexeme pieces are kept instead (enough to
decide Python truthiness: a float literal is falsy exactly when every
mantissa digit is zero).  `NaN`/`Infinity`/`-Infinity` are accepted, as
CPython does by default.  `\uXXXX` escapes are decoded; surrogate pairs are
combined, and the model rejects lone surrogates (which CPython tolerates —
an unreachable corner for every claim below). -/

inductive Json where
  | null
  | bool (b : Bool)
  | int (n : Int)
  | float (neg : Bool) (ip : List Nat) (fp : List Nat) (ex : Int)
  | nan
  | inf (neg : Bool)
  | str (s : List Char)
  | arr (xs : List Json)
  | obj (kvs : List (List Char × Json))
deriving Inhabited

/-- JSON insignificant whitespace (`json.decoder`: space, tab, newline, CR). -/
def isJsonWs (c : Char) : Bool :=
  c = ' ' || c = '\t' || c = '\n' || c = '\x0d'

def skipWs (l : List Char) : List Char := l.dropWhile isJsonWs

/-- Hex digit value (`0-9`, `a-f`, `A-F`). -/
def hexDigit (c : Char) : Option Nat :=
  if '0' ≤ c ∧ c ≤ '9' then some (c.toNat - 48)
  else if 'a' ≤ c ∧ c ≤ 'f' then some (c.toNat - 87)
  else if 'A' ≤ c ∧ c ≤ 'F' then some (c.toNat - 55)
  else none

/-- Parse a `\uXXXX` payload (four hex digits). -/
def readHex4 : List Char → Option (Nat × List Char)
  | a :: b :: c :: d :: rest => do
      let x ← hexDigit a
      let y ← hexDigit b
      let z ← hexDigit c
      let w ← hexDigit d
      some (((x * 16 + y) * 16 + z) * 16 + w, rest)
  | _ => none

/-- Parse the body of a JSON string (after the opening quote), strict mode:
unescaped control characters (< 0x20) are rejected. -/
def parseJString : Nat → List Char → Option (List Char × List Char)
  | 0, _ => none
  | _ + 1, [] => none
  | fuel + 1, c :: rest =>
    if c = '"' then some ([], rest)
    else if c = '\\' then
      match rest with
      | [] => none
      | e :: rest2 =>
        let simple : Option Char :=
          match e with
          | '"' => some '"' | '\\' => some '\\' | '/' => some '/'
          | 'b' => some '\x08' | 'f' => some '\x0c' | 'n' => some '\n'
          | 'r' => some '\x0d' | 't' => some '\t' | _ => none
        match simple with
        | some d => do
            let (s, rem) ← parseJString fuel rest2
            some (d :: s, rem)
        | none =>
          if e = 'u' then do
            let (h, rest3) ← readHex4 rest2
            if h < 0xD800 || 0xE000 ≤ h then do
              let (s, rem) ← parseJString fuel rest3
              some (Char.ofNat h :: s, rem)
            else if h < 0xDC00 then
              -- high surrogate: must be followed by an escaped low surrogate
              match rest3 with
              | '\\' :: 'u' :: rest4 => do
                  let (lo, rest5) ← readHex4 rest4
                  if 0xDC00 ≤ lo && lo < 0xE000 then do
                    let cp := 0x10000 + (h - 0xD800) * 0x400 + (lo - 0xDC00)
                    let (s, rem) ← parseJString fuel rest5
                    some (Char.ofNat cp :: s, rem)
                  else none
              | _ => none
            else none
          else none
    else if c.toNat < 0x20 then none
    else do
      let (s, rem) ← parseJString fuel rest
      some (c :: s, rem)

/-- One or more decimal digits off the front. -/
def readDigits : List Char → Option (List Nat × List Char)
  | [] => none
  | c :: rest =>
    match charDigit c with
    | none => none
    | some _ =>
      let more := (c :: rest).takeWhile (fun x => (charDigit x).isSome)
      let vals := more.filterMap charDigit
      some (vals, (c :: rest).drop more.length)

/-- Finish a JSON number after the integer (and optional fraction) part:
an optional exponent decides `float` versus `int`. -/
def parseNumTail (neg : Bool) (ip : List Nat) (hasFrac : Bool) (fp : List Nat)
    (l2 : List Char) : Option (Json × List Char) :=
  match l2 with
  | 'e' :: r | 'E' :: r =>
      let signed : Bool × List Char :=
        match r with
        | '+' :: rr => (false, rr)
        | '-' :: rr => (true, rr)
        | _ => (false, r)
      match readDigits signed.2 with
      | none => none
      | some (eds, r2) =>
          let ev : Int := (eds.foldl (fun a d => a * 10 + d) 0 : Nat)
          some (Json.float neg ip fp (if signed.1 then -ev else ev), r2)
  | _ =>
      if hasFrac then some (Json.float neg ip fp 0, l2)
      else
        let v : Int := (ip.foldl (fun a d => a * 10 + d) 0 : Nat)
        some (Json.int (if neg then -v else v), l2)

/-- Parse a JSON number (an already-consumed minus sign is reported via
`neg`).  Grammar: `int [frac] [exp]`, no superfluous leading zero. -/
def parseNumber (neg : Bool) (l : List Char) : Option (Json × List Char) :=
  match readDigits l with
  | none => none
  | some (ip, l1) =>
    if ip.length > 1 && ip.headD 0 = 0 then none
    else
      match l1 with
      | '.' :: r =>
        match readDigits r with
        | none => none
        | some (fp, l2) => parseNumTail neg ip true fp l2
      | _ => parseNumTail neg ip false [] l1

mutual

/-- Parse one JSON value off the front of the input. -/
def parseValue : Nat → List Char → Option (Json × List Char)
  | 0, _ => none
  | fuel + 1, l =>
    match skipWs l with
    | [] => none
    | c :: rest =>
      if c = '"' then do
        let (s, rem) ← parseJString (fuel + 1) rest
        some (Json.str s, rem)
      else if c = '[' then
        match skipWs rest with
        | ']' :: rem => some (Json.arr [], rem)
        | _ => do
            let (xs, rem) ← parseElems fuel rest
            some (Json.arr xs, rem)
      else if c = '\x7b' then
        match skipWs rest with
        | '\x7d' :: rem => some (Json.obj [], rem)
        | _ => do
            let (kvs, rem) ← parseMembers fuel rest
            some (Json.obj kvs, rem)
      else if leadsWith (cs ("true")) (c :: rest) then
        some (Json.bool true, rest.drop 3)
      else if leadsWith (cs ("false")) (c :: rest) then
        some (Json.bool false, rest.drop 4)
      else if leadsWith (cs ("null")) (c :: rest) then
        some (Json.null, rest.drop 3)
      else if leadsWith (cs ("NaN")) (c :: rest) then
        some (Json.nan, rest.drop 2)
      else if leadsWith (cs ("Infinity")) (c :: rest) then
        some (Json.inf false, rest.drop 7)
      else if c = '-' then
        if leadsWith (cs ("Infinity")) rest then
          some (Json.inf true, rest.drop 8)
        else parseNumber true rest
      else parseNumber false (c :: rest)

/-- Parse a nonempty comma-separated list of array elements plus `]`. -/
def parseElems : Nat → List Char → Option (List Json × List Char)
  | 0, _ => none
  | fuel + 1, l => do
    let (v, rem) ← parseValue fuel l
    match skipWs rem with
    | ',' :: rem2 => do
        let (xs, rem3) ← parseElems fuel rem2
        some (v :: xs, rem3)
    | ']' :: rem2 => some ([v], rem2)
    | _ => none

/-- Parse a nonempty comma-separated list of object members plus `\x7d`. -/
def parseMembers : Nat → List Char → Option (List (List Char × Json) × List Char)
  | 0, _ => none
  | fuel + 1, l =>
    match skipWs l with
    | '"' :: rest => do
        let (k, rem) ← parseJString (fuel + 1) rest
        match skipWs rem with
        | ':' :: rem2 => do
            let (v, rem3) ← parseValue fuel rem2
            match skipWs rem3 with
            | ',' :: rem4 => do
                let (kvs, rem5) ← parseMembers fuel rem4
                some ((k, v) :: kvs, rem5)
            | '\x7d' :: rem4 => some ([(k, v)], rem4)
            | _ => none
        | _ => none
    | _ => none

end

/-- `json.loads`: parse a complete document (whole input consumed up to
trailing whitespace). -/
def jsonParse (l : List Char) : Option Json :=
  match parseValue (l.length + 1) l with
  | some (v, rem) => if skipWs rem = [] then some v else none
  | none => none

/-- Python `dict.get key default` on a parsed object.  CPython dicts keep the
last value written for a duplicated key, which is the value `get` returns. -/
def Json.get (kvs : List (List Char × Json)) (k : List Char) (dflt : Json) : Json :=
  match kvs.reverse.find? (fun kv => kv.1 = k) with
  | some kv => kv.2
  | none => dflt

/-- Python truthiness of a JSON-decoded value. -/
def Json.truthy : Json → Bool
  | .null => false
  | .bool b => b
  | .int n => n ≠ 0
  | .float _ ip fp _ => ip.any (· ≠ 0) || fp.any (· ≠ 0)
  | .nan => true
  | .inf _ => true
  | .str s => !s.isEmpty
  | .arr xs => !xs.isEmpty
  | .obj kvs => !kvs.isEmpty

/-!  ### `src/agent/models.py` -/

/-- `models.Action`.  `__post_init__` guarantees the timestamp is set, so the
field is total here. -/
structure Action where
  subenvironment : List Char
  input_body : List Char
  timestamp : DateTime
  reasoning : List Char
deriving DecidableEq, Repr

/-- The dictionary produced by `Action.to_dict` (fixed schema). -/
structure ActionDict where
  subenvironment : List Char
  input_body : List Char
  timestamp : List Char
  reasoning : List Char
deriving DecidableEq, Repr

/-- `Action.to_dict`. -/
def Action.to_dict (a : Action) : ActionDict :=
  { subenvironment := a.subenvironment
    input_body := a.input_body
    timestamp := a.timestamp.iso
    reasoning := a.reasoning }

/-- `Action.from_dict`; `none` models the `ValueError` raised by
`datetime.fromisoformat` on an unparsable timestamp. -/
def Action.from_dict (d : ActionDict) : Option Action :=
  match DateTime.fromIso d.timestamp with
  | none => none
  | some ts =>
      some { subenvironment := d.subenvironment
             input_body := d.input_body
             timestamp := ts
             reasoning := d.reasoning }

/-- `models.Percept`. -/
structure Percept where
  tool_result : List Char
  judge_essay : List Char
  timestamp : DateTime
  action_reference : Option Action
deriving DecidableEq, Repr

/-- The dictionary produced by `Percept.to_dict`. -/
structure PerceptDict where
  tool_result : List Char
  judge_essay : List Char
  timestamp : List Char
  action_reference : Option ActionDict
deriving DecidableEq, Repr

/-- `Percept.to_dict`. -/
def Percept.to_dict (p : Percept) : PerceptDict :=
  { tool_result := p.tool_result
    judge_essay := p.judge_essay
    timestamp := p.timestamp.iso
    action_reference := p.action_reference.map Action.to_dict }

/-- `Percept.from_dict` (`if data.get("action_reference"):` — a present
dictionary is truthy, `None` is falsy). -/
def Percept.from_dict (d : PerceptDict) : Option Percept :=
  let actionRef : Option (Option Action) :=
    match d.action_reference with
    | none => some none
    | some ad =>
        match Action.from_dict ad with
        | none => none
        | some a => some (some a)
  match actionRef with
  | none => none
  | some ar =>
      match DateTime.fromIso d.timestamp with
      | none => none
      | some ts =>
          some { tool_result := d.tool_result
                 judge_essay := d.judge_essay
                 timestamp := ts
                 action_reference := ar }

/-- `models.AgentState`. -/
structure AgentState where
  cycle_number : Nat
  history : List Char
  total_actions : Nat
  constitution : List Char
deriving DecidableEq, Repr

/-- Decimal rendering of a natural number (Python f-string interpolation). -/
def natChars (n : Nat) : List Char := (Nat.repr n).toList

/-- `"=" * 60`. -/
def eqLine : List Char := List.replicate 60 '='

/-- `AgentState.add_action`. -/
def AgentState.add_action (st : AgentState) (a : Action) : AgentState :=
  let actionText :=
    cs ("\n--- CYCLE ") ++ natChars st.cycle_number ++ cs (" ACTION ---\n") ++
    cs ("Timestamp: ") ++ a.timestamp.iso ++ cs ("\n") ++
    cs ("Subenvironment: ") ++ a.subenvironment ++ cs ("\n") ++
    cs ("Input: ") ++ a.input_body ++ cs ("\n") ++
    (if a.reasoning.isEmpty then []
     else cs ("Reasoning: ") ++ a.reasoning ++ cs ("\n"))
  { st with
    total_actions := st.total_actions + 1
    history := st.history ++ actionText }

/-- `AgentState.add_percept`. -/
def AgentState.add_percept (st : AgentState) (p : Percept) : AgentState :=
  let perceptText :=
    cs ("\n--- CYCLE ") ++ natChars st.cycle_number ++ cs (" PERCEPT ---\n") ++
    cs ("Timestamp: ") ++ p.timestamp.iso ++ cs ("\n") ++
    cs ("Tool Result: ") ++ p.tool_result ++ cs ("\n") ++
    cs ("\nJudge's Evaluation: ") ++ p.judge_essay ++ cs ("\n") ++
    cs ("\n") ++ eqLine ++ cs ("\n")
  { st with history := st.history ++ perceptText }

/-- `AgentState.increment_cycle`. -/
def AgentState.increment_cycle (st : AgentState) : AgentState :=
  { st with cycle_number := st.cycle_number + 1 }

/-- `AgentState.get_formatted_history`. -/
def AgentState.get_formatted_history (st : AgentState) : List Char :=
  if st.history.isEmpty then cs ("No actions taken yet.")
  else
    cs ("AGENT HISTORY (Cycles completed: ") ++ natChars st.cycle_number ++
    cs ("):\n") ++ st.history

/-- Suffix after the last occurrence of `pat` (Python `split(pat)[-1]`),
fuel-structured; the fuel `l.length` suffices for any nonempty `pat`. -/
def afterLastAux : Nat → List Char → List Char → List Char
  | 0, _, l => l
  | fuel + 1, pat, l =>
      match splitAfterFirst pat l with
      | none => l
      | some rest => afterLastAux fuel pat rest

def afterLastOcc (pat l : List Char) : List Char := afterLastAux l.length pat l

/-- `AgentState.get_last_judge_feedback`. -/
def AgentState.get_last_judge_feedback (st : AgentState) : List Char :=
  let tag := cs ("Judge's Evaluation:")
  if containsSub tag st.history then
    pyStrip (takeBeforeFirst (cs ("\n") ++ eqLine) (afterLastOcc tag st.history))
  else []

/-- Fresh state as built in `main` (`AgentState(constitution=constitution)`;
the other fields default to `0` / `""`). -/
def initState (constitution : List Char) : AgentState :=
  { cycle_number := 0, history := [], total_actions := 0,
    constitution := constitution }

/-!  ### `src/agent/agent.py` — `Ideator._parse_response`

The regexes of `_parse_response`, specialised to literal-headed patterns:

* `REASONING:\s*(.*?)(?=ACTION:|$)` with DOTALL, followed by `.strip()`:
  the stripped text between the first `REASONING:` and the following first
  `ACTION:` (or the end).  Stripping makes the greedy `\s*`, the lazy group
  and the `$`-before-final-newline subtleties collapse to
  `strip(takeBeforeFirst "ACTION:" (after first "REASONING:"))`.
* `ACTION:\s*(.*?)$` with DOTALL, followed by `.strip()`: likewise
  `strip(everything after the first "ACTION:")`.
* `input_body:\s*(.*)` with DOTALL, followed by `.strip()`: likewise
  `strip(everything after the first "input_body:")`.
* `subenvironment:\s*(.+)` (no DOTALL) is embedded literally below:
  at each occurrence of the literal, greedy `\s*` then at least one
  non-newline character up to the end of the line, with the regex engine
  backtracking over `\s*` and advancing one position on failure. -/

/-- Attempt the `\s*(.+)` tail of `subenvironment:\s*(.+)` at one
occurrence position: maximal whitespace run, then the rest of the line if
nonempty; on failure backtrack to the last whitespace character that is not
a newline. -/
def lineGroupAt (rest : List Char) : Option (List Char) :=
  let w := (rest.takeWhile isPySpace).length
  if w < rest.length then some (takeLine (rest.drop w))
  else
    match rest.reverse.dropWhile (fun c => c = '\n') with
    | [] => none
    | c :: _ => some [c]

/-- `re.search` for a pattern `lit\s*(.+)`: try every occurrence of the
literal left to right, returning the first position where the tail matches. -/
def searchLineTail (lit : List Char) : List Char → Option (List Char)
  | [] => none
  | c :: rest =>
      if leadsWith lit (c :: rest) then
        match lineGroupAt (List.drop lit.length (c :: rest)) with
        | some g => some g
        | none => searchLineTail lit rest
      else searchLineTail lit rest

/-- `Ideator._parse_response`.  Returns the `Action` or the error message of
the `(None, message)` failure tuple.  The timestamp that
`Action.__post_init__` takes from the wall clock is passed in as `ts`.
The `str(e)` detail interpolated into the invalid-JSON message comes from
the `json` library and is abbreviated here. -/
def parseResponse (ts : DateTime) (text : List Char) : Except (List Char) Aixi.Action :=
  let reasoning :=
    match splitAfterFirst (cs ("REASONING:")) text with
    | none => []
    | some tail => pyStrip (takeBeforeFirst (cs ("ACTION:")) tail)
  match splitAfterFirst (cs ("ACTION:")) text with
  | none => Except.error (cs ("No ACTION section found in response"))
  | some tail =>
    let actionText := pyStrip tail
    match searchLineTail (cs ("subenvironment:")) actionText with
    | none => Except.error (cs ("No subenvironment specified in action"))
    | some subGroup =>
      match splitAfterFirst (cs ("input_body:")) actionText with
      | none => Except.error (cs ("No input_body specified in action"))
      | some bodyTail =>
        let subenvironment := pyStrip subGroup
        let input_body := pyStrip bodyTail
        match jsonParse input_body with
        | none => Except.error (cs ("Invalid JSON in input_body: <json.JSONDecodeError>"))
        | some _ =>
            Except.ok { subenvironment := subenvironment
                        input_body := input_body
                        timestamp := ts
                        reasoning := reasoning }

/-!  ### `Ideator._construct_prompt` and `choose_action`

The prompt is assembled faithfully (it feeds token accounting and the model
call); the model itself is external, so `choose_action` below receives the
model response for the cycle from an oracle. -/

/-- `"\n".join(parts)`. -/
def joinNl : List (List Char) → List Char
  | [] => []
  | [x] => x
  | x :: y :: rest => x ++ '\n' :: joinNl (y :: rest)

/-- `Ideator._construct_prompt`. -/
def constructIdeatorPrompt (st : Aixi.AgentState) (constitution toolDocs : List Char) :
    List Char :=
  let base :=
    [cs ("You are an autonomous AI agent operating under the LLM-AIXI framework."),
     cs ("You must choose your next action based on your constitution, history, and available tools."),
     [],
     cs ("=== YOUR CONSTITUTION ==="),
     constitution,
     [],
     cs ("=== AVAILABLE SUBENVIRONMENTS (TOOLS) ==="),
     toolDocs,
     [],
     cs ("=== YOUR HISTORY ==="),
     st.get_formatted_history,
     []]
  let lastFeedback := st.get_last_judge_feedback
  let withFeedback :=
    if lastFeedback.isEmpty then base
    else
      base ++
      [cs ("=== JUDGE'S FEEDBACK ON YOUR LAST ACTION ==="),
       cs ("Your last action was evaluated thusly: ") ++ lastFeedback,
       cs ("Use this feedback to improve your next action."),
       []]
  joinNl (withFeedback ++
    [cs ("=== INSTRUCTIONS ==="),
     cs ("Based on your constitution, history, and any judge feedback, choose your next action."),
     [],
     cs ("You must respond with EXACTLY this format:"),
     [],
     cs ("REASONING:"),
     cs ("[Explain your reasoning for this action, connecting it to your constitution and goals]"),
     [],
     cs ("ACTION:"),
     cs ("subenvironment: [name of subenvironment]"),
     cs ("input_body: [JSON input for the subenvironment]"),
     [],
     cs ("IMPORTANT:"),
     cs ("- Follow your constitution strictly"),
     cs ("- Learn from judge feedback"),
     cs ("- Choose actions that advance your primary objective"),
     cs ("- Ensure input_body is valid JSON for the chosen subenvironment"),
     cs ("- Be strategic and avoid redundant actions"),
     [],
     cs ("Choose your action now:")])

/-- `Ideator.choose_action`, with the model response of this call supplied
by the caller (`none` models an empty `response.text`; an exception in the
API call surfaces through the same `(None, message)` shape and is subsumed
by `none` up to the message text, which no claim inspects).  The pair
mirrors the Python `(action_or_None, error_message)` tuple. -/
def chooseAction (response : Option (List Char)) (ts : DateTime)
    (st : Aixi.AgentState) (constitution toolDocs : List Char) :
    Option Aixi.Action × List Char :=
  let _prompt := constructIdeatorPrompt st constitution toolDocs
  match response with
  | none => (none, cs ("No response received from LLM"))
  | some t =>
      match parseResponse ts t with
      | Except.error e => (none, cs ("Failed to parse LLM response: ") ++ e)
      | Except.ok a => (some a, [])

/-!  ### `src/environment/orchestrator.py` and `src/environment/judge.py`

The registry `SUBENVIRONMENTS` maps names to tool functions whose bodies
perform I/O (files, subprocesses, HTTP, a second LLM); a tool call is
therefore an oracle `List Char → ToolOutcome`, where `.exn` models the tool
raising (caught by `_route_to_subenvironment`) and `.ok` a returned result
text.  The judge model call is an oracle on the constructed prompt. -/

/-- Outcome of invoking one subenvironment function. -/
inductive ToolOutcome where
  | ok (result : List Char)
  | exn (message : List Char)

/-- The `SUBENVIRONMENTS` registry shape: name, function. -/
def Registry : Type := List (List Char × (List Char → ToolOutcome))

/-- Dictionary key lookup (keys are unique in a Python dict). -/
def Registry.lookup (reg : Registry) (name : List Char) :
    Option (List Char → ToolOutcome) :=
  match reg.find? (fun kv => kv.1 = name) with
  | some kv => some kv.2
  | none => none

/-- The key list of `SUBENVIRONMENTS` (`src/subenvironments/__init__.py`),
in insertion order. -/
def SUBENV_NAMES : List (List Char) :=
  [cs ("file_system"), cs ("web_search"), cs ("code_executor"), cs ("consultant")]

/-- `", ".join(keys)`. -/
def joinComma : List (List Char) → List Char
  | [] => []
  | [x] => x
  | x :: y :: rest => x ++ cs (", ") ++ joinComma (y :: rest)

/-- `Orchestrator._route_to_subenvironment`. -/
def routeToSubenvironment (reg : Registry) (a : Aixi.Action) : List Char :=
  match reg.lookup a.subenvironment with
  | none =>
      cs ("ERROR: Unknown subenvironment '") ++ a.subenvironment ++
      cs ("'. Available: ") ++ joinComma (reg.map (fun kv => kv.1))
  | some f =>
      match f a.input_body with
      | ToolOutcome.ok r => r
      | ToolOutcome.exn m =>
          cs ("ERROR: Subenvironment '") ++ a.subenvironment ++
          cs ("' failed: ") ++ m

/-- `Orchestrator._format_action_for_judge`. -/
def formatActionForJudge (a : Aixi.Action) : List Char :=
  joinNl
    ([cs ("Subenvironment: ") ++ a.subenvironment,
      cs ("Input Body: ") ++ a.input_body,
      cs ("Timestamp: ") ++ a.timestamp.iso] ++
     (if a.reasoning.isEmpty then []
      else [cs ("Agent's Reasoning: ") ++ a.reasoning]))

/-- `Orchestrator.validate_action`. -/
def validateAction (reg : Registry) (a : Aixi.Action) : Bool × List Char :=
  match reg.lookup a.subenvironment with
  | none =>
      (false, cs ("Unknown subenvironment '") ++ a.subenvironment ++
              cs ("'. Available: ") ++ joinComma (reg.map (fun kv => kv.1)))
  | some _ =>
      if (pyStrip a.input_body).isEmpty then
        (false, cs ("Action input_body cannot be empty"))
      else (true, [])

/-- Outcome of one judge model call: returned text, or a raised exception
(the `except Exception` branch of `evaluate_action`). -/
inductive JOutcome where
  | ok (text : List Char)
  | exn (message : List Char)

/-- `Judge._construct_evaluation_prompt`. -/
def constructEvaluationPrompt (st : Aixi.AgentState)
    (constitution lastAction toolResult : List Char) : List Char :=
  joinNl
    [cs ("You are a critical judge evaluating an autonomous AI agent's actions."),
     cs ("Your role is to provide detailed, constructive feedback based on the agent's constitution. Your sole goal is to help it achieve constitutional alignment, compassionately yet firmly. Always assume the agent is operating in good faith and is trying to learn."),
     [],
     cs ("=== AGENT'S CONSTITUTION ==="),
     constitution,
     [],
     cs ("=== AGENT'S COMPLETE HISTORY ==="),
     st.get_formatted_history,
     [],
     cs ("=== MOST RECENT ACTION-PERCEPTION CYCLE ==="),
     cs ("Action Taken: ") ++ lastAction,
     cs ("Tool Result: ") ++ toolResult,
     [],
     cs ("=== YOUR EVALUATION TASK ==="),
     cs ("Analyze ONLY the most recent action-perception cycle in the context of:"),
     cs ("1. Constitutional adherence"),
     cs ("2. Strategic effectiveness"),
     cs ("3. Learning and improvement"),
     cs ("4. Resource efficiency"),
     cs ("5. Progress toward objectives"),
     cs ("6. Repetitive Behavior Analysis: Is the agent repeating a failed action? If so, your feedback must become highly prescriptive."),
     [],
     cs ("=== YOUR FEEDBACK STYLE ==="),
     cs ("IF THE AGENT IS MAKING PROGRESS: Be encouraging but critical. Point out strengths and suggest high-level strategic improvements."),
     cs ("IF THE AGENT IS STUCK OR REPEATING A FAILED ACTION: Your feedback must become a direct, numbered list of instructions. Do not waste tokens on repeating the nature of the failure. Instead, provide a concrete, actionable plan for the very next cycle. For example:"),
     cs ("   - 'Your reasoning is correct, but your action was incomplete. In the next cycle, you must use the `code_executor` tool to analyze the content.'"),
     cs ("   - 'You have failed to analyze the file content for three cycles. Your next action *must* be to use the `consultant` tool and ask: 'How can I search for a string within a file's content using Python?' '"),
     [],
     cs ("Your evaluation essay:")]

/-- `Judge.evaluate_action`: prompt construction, model call, empty-response
and exception handling. -/
def evaluateAction (judgeModel : List Char → JOutcome) (st : Aixi.AgentState)
    (constitution lastAction toolResult : List Char) : List Char :=
  match judgeModel (constructEvaluationPrompt st constitution lastAction toolResult) with
  | JOutcome.ok t =>
      if t.isEmpty then cs ("ERROR: No evaluation received from judge")
      else pyStrip t
  | JOutcome.exn m => cs ("ERROR: Judge evaluation failed: ") ++ m

/-- `Orchestrator.process_action`.  `perceptTs` is the wall-clock value the
`Percept.__post_init__` takes. -/
def processAction (judgeModel : List Char → JOutcome) (reg : Registry)
    (perceptTs : DateTime) (a : Aixi.Action) (st : Aixi.AgentState)
    (constitution : List Char) : Aixi.Percept :=
  let tool_result := routeToSubenvironment reg a
  let actionDescription := formatActionForJudge a
  let judge_essay := evaluateAction judgeModel st constitution actionDescription tool_result
  { tool_result := tool_result
    judge_essay := judge_essay
    timestamp := perceptTs
    action_reference := some a }

/-!  ### `src/main.py` — the cycle loop

External nondeterminism is packaged into an `Oracle`: the ideator model
response for each cycle, wall-clock readings, the judge model, the tool
registry, and where (if anywhere) an asynchronous `KeyboardInterrupt` or
uncaught exception strikes inside a cycle.  Only two strike windows are
observable in the history: before `add_action` (nothing recorded) and
between `add_action` and `add_percept` (the dangling-action window);
`Judge.evaluate_action` and `_route_to_subenvironment` catch `Exception`
inside `process_action`, but `KeyboardInterrupt` passes through them. -/

/-- Where an interrupt or uncaught exception strikes in a cycle, if at all. -/
inductive Stage where
  | calm
  | preAction
  | postAction
deriving DecidableEq, Repr

structure Oracle where
  /-- Ideator model response text in cycle `k` (`none`: empty text or API
  error — either way `choose_action` fails). -/
  respond : Nat → Option (List Char)
  /-- Wall clock at `Action` creation in cycle `k`. -/
  actionTime : Nat → DateTime
  /-- Wall clock at `Percept` creation in cycle `k`. -/
  perceptTime : Nat → DateTime
  /-- Judge model call. -/
  judgeModel : List Char → JOutcome
  /-- `SUBENVIRONMENTS`. -/
  tools : Registry
  /-- Interrupt/exception schedule. -/
  interrupt : Nat → Stage

/-- A history append event: the structured shadow of `add_action` /
`add_percept`, in call order. -/
inductive Entry where
  | action (a : Aixi.Action)
  | percept (p : Aixi.Percept)
deriving Repr

/-- `choose_action` at cycle `k` under an oracle. -/
def chooseActionAt (o : Oracle) (k : Nat) (st : Aixi.AgentState)
    (constitution toolDocs : List Char) : Option Aixi.Action × List Char :=
  chooseAction (o.respond k) (o.actionTime k) st constitution toolDocs

/-- The `for cycle in range(1, max_cycles + 1)` loop of `main`, recursing on
the remaining cycle count `rem` with `k` the current cycle number.  Returns
the final state and the append-event log.  Termination cases mirror the
source: selector failure (`if error: break`), interrupt/exception
(`except ... break`), or cycle exhaustion. -/
def runLoop (o : Oracle) (constitution toolDocs : List Char) :
    Nat → Nat → Aixi.AgentState → List Entry → Aixi.AgentState × List Entry
  | 0, _, st, log => (st, log)
  | rem + 1, k, st, log =>
    let st1 := st.increment_cycle
    if o.interrupt k = Stage.preAction then (st1, log)
    else
      match chooseActionAt o k st1 constitution toolDocs with
      | (oa, err) =>
        if !err.isEmpty then (st1, log)
        else
          match oa with
          | none => (st1, log)
          | some a =>
            let st2 := st1.add_action a
            let log2 := log ++ [Entry.action a]
            if o.interrupt k = Stage.postAction then (st2, log2)
            else
              let p := processAction o.judgeModel o.tools (o.perceptTime k) a st2 constitution
              let st3 := st2.add_percept p
              runLoop o constitution toolDocs rem (k + 1) st3 (log2 ++ [Entry.percept p])

/-- A complete run: `max_cycles` cycles from the fresh state. -/
def runMain (o : Oracle) (constitution toolDocs : List Char) (maxCycles : Nat) :
    Aixi.AgentState × List Entry :=
  runLoop o constitution toolDocs maxCycles 1 (initState constitution) []

/-!  ### `src/subenvironments/file_system.py`

The on-disk state is a map from resolved absolute paths (component lists) to
file contents.  `Path.resolve()` is modelled as lexical `.`/`..`
normalisation (no symlinks).  Directory structure is implicit (a directory
exists when it is the working directory or an ancestor of a file), which is
enough for every branch a claim exercises; `str(e)` texts that CPython
builds inside libraries are abbreviated to a fixed descriptor between
angle brackets. -/

/-- An absolute path as components from the filesystem root. -/
def AbsPath : Type := List (List Char)

instance : DecidableEq AbsPath := by unfold AbsPath; infer_instance

/-- The file store: resolved absolute path to content. -/
def FS : Type := List (AbsPath × List Char)

/-- Split a path string on `/` (POSIX separators). -/
def splitSlashAux : List Char → List Char → List (List Char)
  | [], acc => [acc.reverse]
  | '/' :: rest, acc => acc.reverse :: splitSlashAux rest []
  | c :: rest, acc => splitSlashAux rest (c :: acc)

def splitSlash (p : List Char) : List (List Char) := splitSlashAux p []

/-- One step of lexical resolution: empty and `.` components vanish, `..`
pops (staying at the root when already there). -/
def resolveStep (acc : List (List Char)) (comp : List Char) : List (List Char) :=
  if comp.isEmpty || comp = cs (".") then acc
  else if comp = cs ("..") then acc.dropLast
  else acc ++ [comp]

/-- `(self.working_directory / path).resolve()`: joining an absolute `path`
discards the base, then the components are normalised. -/
def resolvePath (wd : List (List Char)) (p : List Char) : List (List Char) :=
  let base := if p.head? = some '/' then [] else wd
  (splitSlash p).foldl resolveStep base

/-- Component-wise list prefix test. -/
def compPrefix : List (List Char) → List (List Char) → Bool
  | [], _ => true
  | _ :: _, [] => false
  | a :: as, b :: bs => a = b && compPrefix as bs

/-- `FileSystemSubenvironment._safe_path`: resolve, then require the result
to sit under the working directory (`relative_to` succeeds exactly when
`wd` is a component prefix); `none` models the raised `ValueError`. -/
def safePath (wd : List (List Char)) (p : List Char) : Option (List (List Char)) :=
  let rp := resolvePath wd p
  if compPrefix wd rp then some rp else none

def FS.lookup (fs : FS) (rp : AbsPath) : Option (List Char) :=
  match fs.find? (fun kv => kv.1 = rp) with
  | some kv => some kv.2
  | none => none

def FS.set (fs : FS) (rp : AbsPath) (c : List Char) : FS :=
  fs.filter (fun kv => !(kv.1 = rp : Bool)) ++ [(rp, c)]

def FS.erase (fs : FS) (rp : AbsPath) : FS :=
  fs.filter (fun kv => !(kv.1 = rp : Bool))

/-- Does a directory exist at `rp` (the working directory itself, or an
ancestor of some file)? -/
def dirExists (fs : FS) (wd : List (List Char)) (rp : AbsPath) : Bool :=
  rp = wd || fs.any (fun kv => compPrefix rp kv.1 && !(kv.1 = rp : Bool))

/-- Python `str()` display of a decoded JSON value, for f-string
interpolation.  Float display is lexeme-based rather than CPython float
repr; containers are abbreviated — no claim interpolates those. -/
def pyStrJ : Json → List Char
  | Json.null => cs ("None")
  | Json.bool true => cs ("True")
  | Json.bool false => cs ("False")
  | Json.int n => (Int.repr n).toList
  | Json.float _ _ _ _ => cs ("<float>")
  | Json.nan => cs ("nan")
  | Json.inf false => cs ("inf")
  | Json.inf true => cs ("-inf")
  | Json.str s => s
  | Json.arr _ => cs ("<list>")
  | Json.obj _ => cs ("<dict>")

/-- Python type name of a decoded JSON value (`TypeError` interpolation). -/
def pyTypeName : Json → List Char
  | Json.null => cs ("NoneType")
  | Json.bool _ => cs ("bool")
  | Json.int _ => cs ("int")
  | Json.float _ _ _ _ => cs ("float")
  | Json.nan => cs ("float")
  | Json.inf _ => cs ("float")
  | Json.str _ => cs ("str")
  | Json.arr _ => cs ("list")
  | Json.obj _ => cs ("dict")

/-- `FileSystemSubenvironment.write_file`, with the argument types it is
actually handed by `process_file_system_action` (decoded JSON values).  A
string path and string content write the content.  A string path with a
non-string content reaches `open(safe_path, 'w')` — which creates or
truncates the file — before `f.write(content)` raises `TypeError`, so the
error case leaves an empty file behind.  A non-string path raises inside
`self.working_directory / path` before any filesystem effect. -/
def writeFile (fs : FS) (wd : List (List Char)) (path content : Json) :
    FS × List Char :=
  match path with
  | Json.str p =>
    match safePath wd p with
    | none =>
        (fs, cs ("ERROR: Failed to write file '") ++ p ++
             cs ("': Path '") ++ p ++ cs ("' is outside working directory"))
    | some rp =>
      match content with
      | Json.str c =>
          (fs.set rp c,
           cs ("SUCCESS: Wrote ") ++ natChars c.length ++
           cs (" characters to file '") ++ p ++ cs ("'"))
      | other =>
          (fs.set rp [],
           cs ("ERROR: Failed to write file '") ++ p ++
           cs ("': write() argument must be str, not ") ++ pyTypeName other)
  | other =>
      (fs, cs ("ERROR: Failed to write file '") ++ pyStrJ other ++
           cs ("': <TypeError: argument should be a str or an os.PathLike object>"))

/-- `FileSystemSubenvironment.read_file` (no filesystem mutation). -/
def readFile (fs : FS) (wd : List (List Char)) (path : Json) : List Char :=
  match path with
  | Json.str p =>
    match safePath wd p with
    | none =>
        cs ("ERROR: Failed to read file '") ++ p ++
        cs ("': Path '") ++ p ++ cs ("' is outside working directory")
    | some rp =>
      match fs.lookup rp with
      | none =>
          if dirExists fs wd rp then cs ("ERROR: '") ++ p ++ cs ("' is not a file")
          else cs ("ERROR: File '") ++ p ++ cs ("' does not exist")
      | some c =>
          cs ("SUCCESS: Read file '") ++ p ++ cs ("'\n\nContent:\n") ++ c
  | other =>
      cs ("ERROR: Failed to read file '") ++ pyStrJ other ++
      cs ("': <TypeError: argument should be a str or an os.PathLike object>")

/-- `FileSystemSubenvironment.list_files`.  The success listing is
simplified (directory hierarchy is implicit in this model); the error
branches are faithful.  No claim depends on the listing text. -/
def listFiles (fs : FS) (wd : List (List Char)) (path : Json) : List Char :=
  match path with
  | Json.str p =>
    match safePath wd p with
    | none =>
        cs ("ERROR: Failed to list directory '") ++ p ++
        cs ("': Path '") ++ p ++ cs ("' is outside working directory")
    | some rp =>
      if (fs.lookup rp).isSome then cs ("ERROR: '") ++ p ++ cs ("' is not a directory")
      else if !dirExists fs wd rp then
        cs ("ERROR: Directory '") ++ p ++ cs ("' does not exist")
      else
        let inside := fs.filter (fun kv => compPrefix rp kv.1)
        if inside.isEmpty then cs ("SUCCESS: Directory '") ++ p ++ cs ("' is empty")
        else cs ("SUCCESS: Contents of directory '") ++ p ++ cs ("':\n") ++
             joinNl (inside.map (fun kv =>
               cs ("[FILE] ") ++ joinComma kv.1 ++ cs (" (") ++
               natChars kv.2.length ++ cs (" bytes)")))
  | other =>
      cs ("ERROR: Failed to list directory '") ++ pyStrJ other ++
      cs ("': <TypeError: argument should be a str or an os.PathLike object>")

/-- `FileSystemSubenvironment.file_exists`. -/
def fileExists (fs : FS) (wd : List (List Char)) (path : Json) : List Char :=
  match path with
  | Json.str p =>
    match safePath wd p with
    | none =>
        cs ("ERROR: Failed to check path '") ++ p ++
        cs ("': Path '") ++ p ++ cs ("' is outside working directory")
    | some rp =>
      match fs.lookup rp with
      | some c =>
          cs ("SUCCESS: File '") ++ p ++ cs ("' exists (") ++
          natChars c.length ++ cs (" bytes)")
      | none =>
          if dirExists fs wd rp then cs ("SUCCESS: Directory '") ++ p ++ cs ("' exists")
          else cs ("SUCCESS: Path '") ++ p ++ cs ("' does not exist")
  | other =>
      cs ("ERROR: Failed to check path '") ++ pyStrJ other ++
      cs ("': <TypeError: argument should be a str or an os.PathLike object>")

/-- `FileSystemSubenvironment.delete_file`. -/
def deleteFile (fs : FS) (wd : List (List Char)) (path : Json) :
    FS × List Char :=
  match path with
  | Json.str p =>
    match safePath wd p with
    | none =>
        (fs, cs ("ERROR: Failed to delete file '") ++ p ++
             cs ("': Path '") ++ p ++ cs ("' is outside working directory"))
    | some rp =>
      match fs.lookup rp with
      | none =>
          (fs, if dirExists fs wd rp then cs ("ERROR: '") ++ p ++ cs ("' is not a file")
               else cs ("ERROR: File '") ++ p ++ cs ("' does not exist"))
      | some _ => (fs.erase rp, cs ("SUCCESS: Deleted file '") ++ p ++ cs ("'"))
  | other =>
      (fs, cs ("ERROR: Failed to delete file '") ++ pyStrJ other ++
           cs ("': <TypeError: argument should be a str or an os.PathLike object>"))

/-- Python `==` between a decoded JSON value and a string literal. -/
def jeqStr (j : Json) (s : List Char) : Bool :=
  match j with
  | Json.str t => t = s
  | _ => false

/-- `process_file_system_action`: JSON decode, field extraction with
defaults, dispatch.  `wd` is the resolved working directory the fresh
`FileSystemSubenvironment()` computes. -/
def processFileSystemAction (fs : FS) (wd : List (List Char))
    (input : List Char) : FS × List Char :=
  match jsonParse input with
  | none => (fs, cs ("ERROR: Invalid JSON input: <json.JSONDecodeError>"))
  | some (Json.obj kvs) =>
      let action := Json.get kvs (cs ("action")) Json.null
      let path := Json.get kvs (cs ("path")) (Json.str [])
      let content := Json.get kvs (cs ("content")) (Json.str [])
      if jeqStr action (cs ("read_file")) then (fs, readFile fs wd path)
      else if jeqStr action (cs ("write_file")) then
        if !content.truthy then
          (fs, cs ("ERROR: 'content' field is required for write_file action"))
        else writeFile fs wd path content
      else if jeqStr action (cs ("list_files")) then (fs, listFiles fs wd path)
      else if jeqStr action (cs ("file_exists")) then (fs, fileExists fs wd path)
      else if jeqStr action (cs ("delete_file")) then deleteFile fs wd path
      else
        (fs, cs ("ERROR: Unknown action '") ++ pyStrJ action ++
             cs ("'. Available actions: read_file, write_file, list_files, file_exists, delete_file"))
  | some _ =>
      -- `data.get` on a non-dict raises `AttributeError`, caught by the
      -- final `except Exception` branch
      (fs, cs ("ERROR: File system operation failed: <AttributeError>"))

/-!  ### Basic lemmas about the string helpers -/

theorem lw_iff {p l : List Char} : leadsWith p l = true ↔ p <+: l := by
  induction p generalizing l with
  | nil => simp [leadsWith]
  | cons x ps ih =>
    cases l with
    | nil => simp [leadsWith]
    | cons c rest =>
      simp [leadsWith, List.cons_prefix_cons, ih]

theorem containsSub_iff {p l : List Char} : containsSub p l = true ↔ p <:+: l := by
  induction l with
  | nil => simp [containsSub, lw_iff]
  | cons c rest ih =>
    simp [containsSub, lw_iff, ih, List.infix_cons_iff]

theorem dropWhile_length_le (p : Char → Bool) (l : List Char) :
    (l.dropWhile p).length ≤ l.length := by
  induction l with
  | nil => simp
  | cons c rest ih =>
    rw [List.dropWhile_cons]
    split
    · exact le_trans ih (by simp)
    · simp

theorem dropWhile_head_false {p : Char → Bool} {c : Char} {l : List Char}
    (h : List.dropWhile p (c :: l) = c :: l) : p c = false := by
  by_contra hb
  rw [List.dropWhile_cons, if_pos (by simpa using hb)] at h
  have := dropWhile_length_le p l
  rw [h] at this
  simp at this

theorem dropWhile_cons_false {p : Char → Bool} {c : Char} {l : List Char}
    (h : p c = false) : List.dropWhile p (c :: l) = c :: l := by
  rw [List.dropWhile_cons, if_neg (by simp [h])]

theorem pyStrip_eq_self {l : List Char}
    (h1 : l.dropWhile isPySpace = l) (h2 : l.reverse.dropWhile isPySpace = l.reverse) :
    pyStrip l = l := by
  unfold pyStrip
  rw [h1, h2, List.reverse_reverse]

theorem takeWhile_append_cons {p : Char → Bool} {c : Char} (a r : List Char)
    (ha : ∀ y ∈ a, p y = true) (hc : p c = false) :
    List.takeWhile p (a ++ c :: r) = a := by
  induction a with
  | nil => simp [List.takeWhile_cons, hc]
  | cons x xs ih =>
    have hx : p x = true := ha x (by simp)
    simp only [List.cons_append, List.takeWhile_cons, hx, if_true]
    rw [ih (fun y hy => ha y (by simp [hy]))]

theorem splitAfterFirst_none {pat l : List Char}
    (h : containsSub pat l = false) : splitAfterFirst pat l = none := by
  induction l with
  | nil =>
    simp [containsSub] at h
    simp [splitAfterFirst, h]
  | cons c rest ih =>
    simp [containsSub, Bool.or_eq_false_iff] at h
    simp [splitAfterFirst, h.1, ih h.2]

theorem leadsWith_self_append (p b : List Char) : leadsWith p (p ++ b) = true :=
  lw_iff.mpr (List.prefix_append p b)

theorem splitAfterFirst_hit {pat : List Char} (a b : List Char) (hne : pat ≠ [])
    (h : containsSub pat (a ++ pat.dropLast) = false) :
    splitAfterFirst pat (a ++ (pat ++ b)) = some b := by
  induction a with
  | nil =>
    cases pat with
    | nil => exact absurd rfl hne
    | cons x ps =>
      simp only [List.nil_append]
      rw [List.cons_append, splitAfterFirst, ← List.cons_append,
        if_pos (leadsWith_self_append _ _)]
      simp [List.drop_left]
  | cons d a2 ih =>
    have hlw : leadsWith pat (d :: (a2 ++ (pat ++ b))) = false := by
      by_contra hb
      have hpre : pat <+: (d :: a2) ++ (pat ++ b) :=
        lw_iff.mp (by simpa using hb)
      have hlen : pat.length ≤ ((d :: a2) ++ pat.dropLast).length := by
        cases pat with
        | nil => exact absurd rfl hne
        | cons q qs =>
          simp only [List.length_append, List.length_cons, List.length_dropLast]
          omega
      have hpre2 : (d :: a2) ++ pat.dropLast <+: (d :: a2) ++ (pat ++ b) := by
        rw [List.prefix_append_right_inj]
        exact (List.dropLast_prefix pat).trans (List.prefix_append pat b)
      have hp3 : pat <+: (d :: a2) ++ pat.dropLast :=
        List.prefix_of_prefix_length_le hpre hpre2 hlen
      have hcon : containsSub pat ((d :: a2) ++ pat.dropLast) = true :=
        containsSub_iff.mpr hp3.isInfix
      exact Bool.noConfusion (hcon.symm.trans h)
    have h2 : containsSub pat (a2 ++ pat.dropLast) = false := by
      have hh := h
      rw [List.cons_append, containsSub, Bool.or_eq_false_iff] at hh
      exact hh.2
    rw [List.cons_append, splitAfterFirst, if_neg (by simp [hlw])]
    exact ih h2

theorem containsSub_of_infix {p l : List Char} (h : p <:+: l) :
    containsSub p l = true := containsSub_iff.mpr h

theorem containsSub_mid (a p b : List Char) : containsSub p (a ++ p ++ b) = true :=
  containsSub_of_infix ⟨a, b, rfl⟩

theorem containsSub_joinNl_of_mem {x : List Char} {parts : List (List Char)}
    (hm : x ∈ parts) : containsSub x (joinNl parts) = true := by
  induction parts with
  | nil => simp at hm
  | cons y rest ih =>
    cases rest with
    | nil =>
      simp at hm
      subst hm
      have hj : joinNl [x] = x := rfl
      rw [hj]
      exact containsSub_of_infix List.infix_rfl
    | cons z zs =>
      rcases List.mem_cons.mp hm with h | h
      · subst h
        rw [joinNl]
        exact containsSub_of_infix ⟨[], '\n' :: joinNl (z :: zs), rfl⟩
      · have := ih h
        rw [joinNl]
        rcases containsSub_iff.mp this with ⟨s, t, hst⟩
        exact containsSub_of_infix ⟨y ++ '\n' :: s, t, by simp [← hst]⟩

theorem containsSub_trans {p x y : List Char} (h1 : containsSub p x = true)
    (h2 : containsSub x y = true) : containsSub p y = true :=
  containsSub_of_infix ((containsSub_iff.mp h1).trans (containsSub_iff.mp h2))

instance : DecidableEq FS := by unfold FS AbsPath; infer_instance

/-!  ### Concrete fixtures used by witnesses and counterexamples -/

/-- A resolved working directory used in concrete runs. -/
def wdemo : List (List Char) := [cs ("home"), cs ("agent"), cs ("Working Directory")]

def dt0 : DateTime := ⟨2024, 1, 2, 3, 4, 5, 6⟩

/-- A one-tool registry whose tool echoes its payload. -/
def regProbe : Registry :=
  [(cs ("probe"), fun s => ToolOutcome.ok (cs ("CALLED:") ++ s))]

def jmConst : List Char → JOutcome := fun _ => JOutcome.ok (cs ("fine"))

def aEmptyBody : Aixi.Action :=
  { subenvironment := cs ("probe"), input_body := [], timestamp := dt0, reasoning := [] }

def aWsBody : Aixi.Action :=
  { subenvironment := cs ("probe"), input_body := cs ("   "), timestamp := dt0, reasoning := [] }

def aOld : Aixi.Action :=
  { subenvironment := cs ("file_system"), input_body := cs ("\x7b\x7d"),
    timestamp := dt0, reasoning := cs ("because") }

def pOld : Aixi.Percept :=
  { tool_result := cs ("ok-result"), judge_essay := cs ("fine essay"),
    timestamp := dt0, action_reference := some aOld }

/-- A state carrying two full cycles of history, including the cycle-1 entry. -/
def stCex : Aixi.AgentState :=
  (((((initState (cs ("const"))).increment_cycle.add_action aOld).add_percept
    pOld).increment_cycle.add_action aOld).add_percept pOld)

/-!  ### C7 — sandboxed file writes -/

/-- C7: a write whose path argument resolves outside the working directory is
rejected by `_safe_path`, `write_file` returns the error text, and the file
store is unchanged (no file is written anywhere, in particular not outside
the sandbox). -/
theorem c7_write_outside_rejected (fs : FS) (wd : List (List Char))
    (p : List Char) (content : Json)
    (h : compPrefix wd (resolvePath wd p) = false) :
    writeFile fs wd (Json.str p) content =
      (fs, cs ("ERROR: Failed to write file '") ++ p ++ cs ("': Path '") ++ p ++
           cs ("' is outside working directory")) := by
  simp [writeFile, safePath, h]

/-- C7 witness: `"../../etc/passwd"` against a concrete working directory. -/
theorem c7_witness :
    compPrefix wdemo (resolvePath wdemo (cs ("../../etc/passwd"))) = false ∧
    writeFile [] wdemo (Json.str (cs ("../../etc/passwd"))) (Json.str (cs ("secret"))) =
      ([], cs ("ERROR: Failed to write file '../../etc/passwd': Path '../../etc/passwd' is outside working directory")) := by
  constructor
  · rfl
  · exact c7_write_outside_rejected [] wdemo (cs ("../../etc/passwd"))
      (Json.str (cs ("secret"))) (by rfl)

/-!  ### C10 — write_file content guard -/

/-- C10 counterexample: a `write_file` payload whose `content` is the truthy
non-string `123` passes the `if not content` guard; `open(..., 'w')` creates
the file before `f.write(123)` raises, so the call returns an error result
*and* leaves an empty file behind — refuting "no empty file can ever be
created through the write_file interface". -/
theorem c10_cex :
    processFileSystemAction [] wdemo
        (cs ("\x7b\"action\": \"write_file\", \"path\": \"a.txt\", \"content\": 123\x7d")) =
      ([(wdemo ++ [cs ("a.txt")], [])],
       cs ("ERROR: Failed to write file 'a.txt': write() argument must be str, not int")) := by
  rfl

/-- C10 as amended: when the `content` field is missing, the empty string, or
any other falsy value, `process_file_system_action` returns the
content-required error and creates no file. -/
theorem c10_falsy_content_rejected (fs : FS) (wd : List (List Char))
    (input : List Char) (kvs : List (List Char × Json))
    (hp : jsonParse input = some (Json.obj kvs))
    (ha : Json.get kvs (cs ("action")) Json.null = Json.str (cs ("write_file")))
    (hc : (Json.get kvs (cs ("content")) (Json.str [])).truthy = false) :
    processFileSystemAction fs wd input =
      (fs, cs ("ERROR: 'content' field is required for write_file action")) := by
  unfold processFileSystemAction
  rw [hp]
  simp only [ha, hc, jeqStr]
  norm_num [cs]

/-- C10 witness: a concrete payload with the `content` field missing. -/
theorem c10_witness :
    jsonParse (cs ("\x7b\"action\": \"write_file\", \"path\": \"b.txt\"\x7d")) =
      some (Json.obj [(cs ("action"), Json.str (cs ("write_file"))),
                      (cs ("path"), Json.str (cs ("b.txt")))]) ∧
    processFileSystemAction [] wdemo
        (cs ("\x7b\"action\": \"write_file\", \"path\": \"b.txt\"\x7d")) =
      ([], cs ("ERROR: 'content' field is required for write_file action")) := by
  refine ⟨by rfl, ?_⟩
  exact c10_falsy_content_rejected [] wdemo _
    [(cs ("action"), Json.str (cs ("write_file"))), (cs ("path"), Json.str (cs ("b.txt")))]
    (by rfl) (by rfl) (by rfl)

/-!  ### C5 — payload validation before dispatch -/

/-- C5 counterexample: an action with an empty payload is dispatched straight
to the tool adapter by `process_action` (the percept records the adapter
output on the raw empty payload), even though `validate_action` — which is
never invoked on this path — would have rejected it. -/
theorem c5_cex :
    validateAction regProbe aEmptyBody =
      (false, cs ("Action input_body cannot be empty")) ∧
    (processAction jmConst regProbe dt0 aEmptyBody (initState (cs ("c")))
        (cs ("c"))).tool_result = cs ("CALLED:") := by
  exact ⟨by rfl, by rfl⟩

/-- C5 as amended: `validate_action` rejects an empty or whitespace-only
payload with `"Action input_body cannot be empty"`, but neither `main` nor
`process_action` calls it: dispatch hands the unvalidated payload directly
to the registered adapter function. -/
theorem c5_validator_bypassed (reg : Registry) (a : Aixi.Action)
    (f : List Char → ToolOutcome) (jm : List Char → JOutcome)
    (ts : DateTime) (st : Aixi.AgentState) (c : List Char)
    (h1 : (pyStrip a.input_body).isEmpty = true)
    (h2 : reg.lookup a.subenvironment = some f) :
    validateAction reg a = (false, cs ("Action input_body cannot be empty")) ∧
    routeToSubenvironment reg a =
      (match f a.input_body with
       | ToolOutcome.ok r => r
       | ToolOutcome.exn m =>
           cs ("ERROR: Subenvironment '") ++ a.subenvironment ++
           cs ("' failed: ") ++ m) ∧
    (processAction jm reg ts a st c).tool_result = routeToSubenvironment reg a := by
  refine ⟨?_, ?_, rfl⟩
  · unfold validateAction
    rw [h2]
    simp [h1]
  · unfold routeToSubenvironment
    rw [h2]

/-- C5 witness: whitespace-only payload against the probe registry. -/
theorem c5_witness :
    (pyStrip aWsBody.input_body).isEmpty = true ∧
    validateAction regProbe aWsBody =
      (false, cs ("Action input_body cannot be empty")) := by
  refine ⟨by rfl, ?_⟩
  exact (c5_validator_bypassed regProbe aWsBody
    (fun s => ToolOutcome.ok (cs ("CALLED:") ++ s)) jmConst dt0
    (initState (cs ("c"))) (cs ("c")) (by rfl) (by rfl)).1

/-!  ### C6 — the judge prompt and the history window -/

/-- C6 counterexample: the evaluation prompt for a state holding several
cycles of history contains the entire accumulated log — including the
cycle-1 entry — not a bounded window of recent history. -/
theorem c6_cex :
    containsSub (cs ("--- CYCLE 1 ACTION ---"))
      (constructEvaluationPrompt stCex (cs ("const")) (cs ("la")) (cs ("tr"))) = true ∧
    containsSub stCex.history
      (constructEvaluationPrompt stCex (cs ("const")) (cs ("la")) (cs ("tr"))) = true := by
  have hfmt : containsSub stCex.get_formatted_history
      (constructEvaluationPrompt stCex (cs ("const")) (cs ("la")) (cs ("tr"))) = true := by
    unfold constructEvaluationPrompt
    apply containsSub_joinNl_of_mem
    simp
  have hhist : containsSub stCex.history stCex.get_formatted_history = true := by rfl
  have hmark : containsSub (cs ("--- CYCLE 1 ACTION ---")) stCex.history = true := by rfl
  exact ⟨containsSub_trans (containsSub_trans hmark hhist) hfmt,
         containsSub_trans hhist hfmt⟩

/-- C6 as amended: the per-action evaluation prompt always embeds the
complete formatted history (under the heading `AGENT'S COMPLETE HISTORY`),
together with the constitution and the most recent action/result pair —
the history is not windowed. -/
theorem c6_full_history_in_prompt (st : Aixi.AgentState) (c la tr : List Char) :
    containsSub st.get_formatted_history (constructEvaluationPrompt st c la tr) = true ∧
    containsSub c (constructEvaluationPrompt st c la tr) = true ∧
    containsSub (cs ("Action Taken: ") ++ la) (constructEvaluationPrompt st c la tr) = true ∧
    containsSub (cs ("Tool Result: ") ++ tr) (constructEvaluationPrompt st c la tr) = true := by
  unfold constructEvaluationPrompt
  refine ⟨?_, ?_, ?_, ?_⟩ <;> (apply containsSub_joinNl_of_mem; simp)

/-!  ### Loop lemmas -/

/-- The action `choose_action` yields at cycle `k` (independent of the agent
state, which only feeds the prompt text). -/
def selResult (o : Oracle) (k : Nat) : Option Aixi.Action :=
  match o.respond k with
  | none => none
  | some t =>
      match parseResponse (o.actionTime k) t with
      | Except.error _ => none
      | Except.ok a => some a

theorem chooseActionAt_ok {o : Oracle} {k : Nat} {a : Aixi.Action}
    (st : Aixi.AgentState) (c docs : List Char) (h : selResult o k = some a) :
    chooseActionAt o k st c docs = (some a, []) := by
  unfold selResult at h
  unfold chooseActionAt chooseAction
  cases hr : o.respond k with
  | none => rw [hr] at h; cases h
  | some t =>
    rw [hr] at h
    dsimp only at h ⊢
    cases hp : parseResponse (o.actionTime k) t with
    | error e => rw [hp] at h; cases h
    | ok a2 =>
      rw [hp] at h
      simp only [Option.some.injEq] at h
      subst h
      simp [hp]

/-- Clean-prefix lemma: if the first `n` cycles starting at cycle `k` see no
interrupt and a successful selection, the loop performs them completely,
appending an action/percept pair per cycle, and continues from cycle
`k + n`. -/
theorem runLoop_clean (o : Oracle) (c docs : List Char) :
    ∀ (n m k : Nat) (st : Aixi.AgentState) (log : List Entry),
    (∀ i, i < n → o.interrupt (k + i) = Stage.calm ∧ (selResult o (k + i)).isSome = true) →
    ∃ st2 tail,
      runLoop o c docs (n + m) k st log = runLoop o c docs m (k + n) st2 (log ++ tail) ∧
      tail.length = 2 * n ∧
      (∀ i, i < n → ∃ a pp,
        selResult o (k + i) = some a ∧
        tail[2 * i]? = some (Entry.action a) ∧
        tail[2 * i + 1]? = some (Entry.percept pp) ∧
        pp.action_reference = some a) := by
  intro n
  induction n with
  | zero =>
    intro m k st log _
    exact ⟨st, [], by simp, by simp, by intro i hi; omega⟩
  | succ n ih =>
    intro m k st log hclean
    obtain ⟨hint, hsel⟩ := hclean 0 (Nat.succ_pos n)
    rw [Nat.add_zero] at hint hsel
    obtain ⟨a, ha⟩ := Option.isSome_iff_exists.mp hsel
    have hca := chooseActionAt_ok st.increment_cycle c docs ha
    obtain ⟨st2, tail, heq, hlen, hsh⟩ :=
      ih m (k + 1)
        ((st.increment_cycle.add_action a).add_percept
          (processAction o.judgeModel o.tools (o.perceptTime k) a
            (st.increment_cycle.add_action a) c))
        (log ++ [Entry.action a,
          Entry.percept (processAction o.judgeModel o.tools (o.perceptTime k) a
            (st.increment_cycle.add_action a) c)])
        (by
          intro i hi
          have hc2 := hclean (i + 1) (by omega)
          rwa [show k + (i + 1) = k + 1 + i from by omega] at hc2)
    refine ⟨st2,
      Entry.action a ::
        Entry.percept (processAction o.judgeModel o.tools (o.perceptTime k) a
          (st.increment_cycle.add_action a) c) :: tail, ?_, ?_, ?_⟩
    · rw [show n + 1 + m = (n + m) + 1 from by omega]
      rw [runLoop, hint]
      rw [if_neg (by simp : ¬ (Stage.calm = Stage.preAction))]
      simp only [hca]
      rw [if_neg (by simp : ¬ ((!List.isEmpty []) = true))]
      rw [if_neg (by simp : ¬ (Stage.calm = Stage.postAction))]
      simp only [List.append_assoc, List.cons_append, List.nil_append]
      rw [heq, show k + 1 + n = k + (n + 1) from by omega]
      simp only [List.append_assoc, List.cons_append, List.nil_append]
    · simp only [List.length_cons, hlen]; omega
    · intro i hi
      cases i with
      | zero =>
        refine ⟨a,
          processAction o.judgeModel o.tools (o.perceptTime k) a
            (st.increment_cycle.add_action a) c, ha, by simp, by simp, rfl⟩
      | succ j =>
        obtain ⟨a2, pp2, hs2, h1, h2, h3⟩ := hsh j (by omega)
        refine ⟨a2, pp2, ?_, ?_, ?_, h3⟩
        · rwa [show k + (j + 1) = k + 1 + j from by omega]
        · rw [show 2 * (j + 1) = 2 * j + 1 + 1 from by omega]
          simpa using h1
        · rw [show 2 * (j + 1) + 1 = (2 * j + 1) + 1 + 1 from by omega]
          simpa using h2

/-!  ### C1 — clean-run history shape -/

/-- C1: when all `n` cycles of a run complete without selector error,
interrupt, or uncaught exception, the history log receives exactly `2n`
entries — an Action then a Percept per cycle, in strict alternation — and
each Percept's `action_reference` is the Action appended immediately before
it. -/
theorem c1_clean_run_history (o : Oracle) (c docs : List Char) (n : Nat)
    (hclean : ∀ i, i < n →
      o.interrupt (1 + i) = Stage.calm ∧ (selResult o (1 + i)).isSome = true) :
    ((runMain o c docs n).2).length = 2 * n ∧
    (∀ i, i < n → ∃ a pp,
      ((runMain o c docs n).2)[2 * i]? = some (Entry.action a) ∧
      ((runMain o c docs n).2)[2 * i + 1]? = some (Entry.percept pp) ∧
      pp.action_reference = some a) := by
  obtain ⟨st2, tail, heq, hlen, hsh⟩ :=
    runLoop_clean o c docs n 0 1 (initState c) [] hclean
  have hmain : (runMain o c docs n).2 = tail := by
    unfold runMain
    rw [show n = n + 0 from rfl, heq]
    simp [runLoop]
  rw [hmain]
  refine ⟨hlen, ?_⟩
  intro i hi
  obtain ⟨a, pp, _, h1, h2, h3⟩ := hsh i hi
  exact ⟨a, pp, h1, h2, h3⟩

/-- A model response that parses into an action naming the probe tool. -/
def respDemo : List Char :=
  cs ("REASONING:\nok\nACTION:\nsubenvironment: probe\ninput_body: \x7b\x7d")

/-- An oracle for clean concrete runs. -/
def oDemo : Oracle :=
  { respond := fun _ => some respDemo
    actionTime := fun _ => dt0
    perceptTime := fun _ => dt0
    judgeModel := jmConst
    tools := regProbe
    interrupt := fun _ => Stage.calm }

theorem c1_witness :
    (∀ i, i < 2 →
      oDemo.interrupt (1 + i) = Stage.calm ∧ (selResult oDemo (1 + i)).isSome = true) ∧
    ((runMain oDemo (cs ("const")) (cs ("docs")) 2).2).length = 2 * 2 := by
  have h : ∀ i, i < 2 →
      oDemo.interrupt (1 + i) = Stage.calm ∧ (selResult oDemo (1 + i)).isSome = true := by
    intro i _
    exact ⟨rfl, by rfl⟩
  exact ⟨h, (c1_clean_run_history oDemo (cs ("const")) (cs ("docs")) 2 h).1⟩

/-!  ### C3 — missing ACTION section -/

/-- C3: a model response with no `ACTION:` section makes `_parse_response`
fail with the missing-section message, `choose_action` returns the failure
tuple carrying that message (for any agent state), and the loop halts at
that cycle without appending anything: a clean prefix of `n` cycles leaves
exactly `2n` entries. -/
theorem c3_no_action_section (o : Oracle) (c docs t : List Char) (n M : Nat)
    (hM : n < M)
    (hclean : ∀ i, i < n →
      o.interrupt (1 + i) = Stage.calm ∧ (selResult o (1 + i)).isSome = true)
    (hint : o.interrupt (1 + n) = Stage.calm)
    (ht : o.respond (1 + n) = some t)
    (hna : containsSub (cs ("ACTION:")) t = false) :
    parseResponse (o.actionTime (1 + n)) t =
      Except.error (cs ("No ACTION section found in response")) ∧
    (∀ st, chooseActionAt o (1 + n) st c docs =
      (none, cs ("Failed to parse LLM response: No ACTION section found in response"))) ∧
    ((runMain o c docs M).2).length = 2 * n := by
  have hpr : parseResponse (o.actionTime (1 + n)) t =
      Except.error (cs ("No ACTION section found in response")) := by
    unfold parseResponse
    rw [splitAfterFirst_none hna]
  have hmsg : cs ("Failed to parse LLM response: ") ++
      cs ("No ACTION section found in response") =
      cs ("Failed to parse LLM response: No ACTION section found in response") := by rfl
  have hca : ∀ st : Aixi.AgentState, chooseActionAt o (1 + n) st c docs =
      (none, cs ("Failed to parse LLM response: No ACTION section found in response")) := by
    intro st
    unfold chooseActionAt chooseAction
    rw [ht]
    dsimp only
    rw [hpr]
    dsimp only
    rw [hmsg]
  refine ⟨hpr, hca, ?_⟩
  obtain ⟨st2, tail, heq, hlen, _⟩ :=
    runLoop_clean o c docs n (M - n) 1 (initState c) [] hclean
  have hM2 : n + (M - n) = M := by omega
  obtain ⟨j, hj⟩ : ∃ j, M - n = j + 1 := ⟨M - n - 1, by omega⟩
  have hmain : (runMain o c docs M).2 = tail := by
    unfold runMain
    rw [← hM2, heq, hj, runLoop, hint]
    rw [if_neg (by simp : ¬ (Stage.calm = Stage.preAction))]
    rw [hca]
    simp
  rw [hmain]
  exact hlen

theorem c3_witness :
    containsSub (cs ("ACTION:")) (cs ("I refuse to answer.")) = false ∧
    (0 : Nat) < 3 ∧
    oDemo.respond 1 = some respDemo ∧
    (((runMain { oDemo with respond := fun _ => some (cs ("I refuse to answer.")) }
        (cs ("const")) (cs ("docs")) 3).2).length = 2 * 0) := by
  refine ⟨by rfl, by omega, rfl, ?_⟩
  exact (c3_no_action_section
    { oDemo with respond := fun _ => some (cs ("I refuse to answer.")) }
    (cs ("const")) (cs ("docs")) (cs ("I refuse to answer.")) 0 3
    (by omega) (by intro i hi; omega) rfl rfl (by rfl)).2.2

/-!  ### C4 — unknown tool names -/

/-- C4: dispatching an action whose tool name is not registered produces the
unknown-subenvironment error text (which contains the unknown name and the
comma-joined list of registered names), the percept still records a judge
evaluation performed on that error result, and a loop whose every cycle
selects successfully runs all its cycles to completion — the unknown name
never terminates the run. -/
theorem c4_unknown_tool (o : Oracle) (a : Aixi.Action) (st : Aixi.AgentState)
    (c docs : List Char) (ts : DateTime) (n : Nat)
    (h : o.tools.lookup a.subenvironment = none)
    (hclean : ∀ i, i < n →
      o.interrupt (1 + i) = Stage.calm ∧ (selResult o (1 + i)).isSome = true) :
    routeToSubenvironment o.tools a =
      cs ("ERROR: Unknown subenvironment '") ++ a.subenvironment ++
        cs ("'. Available: ") ++ joinComma (o.tools.map (fun kv => kv.1)) ∧
    containsSub a.subenvironment (routeToSubenvironment o.tools a) = true ∧
    containsSub (joinComma (o.tools.map (fun kv => kv.1)))
      (routeToSubenvironment o.tools a) = true ∧
    (processAction o.judgeModel o.tools ts a st c).tool_result =
      routeToSubenvironment o.tools a ∧
    (processAction o.judgeModel o.tools ts a st c).judge_essay =
      evaluateAction o.judgeModel st c (formatActionForJudge a)
        (routeToSubenvironment o.tools a) ∧
    ((runMain o c docs n).2).length = 2 * n := by
  have hroute : routeToSubenvironment o.tools a =
      cs ("ERROR: Unknown subenvironment '") ++ a.subenvironment ++
        cs ("'. Available: ") ++ joinComma (o.tools.map (fun kv => kv.1)) := by
    unfold routeToSubenvironment
    rw [h]
  refine ⟨hroute, ?_, ?_, rfl, rfl, (c1_clean_run_history o c docs n hclean).1⟩
  · rw [hroute]
    exact containsSub_of_infix
      ⟨cs ("ERROR: Unknown subenvironment '"),
       cs ("'. Available: ") ++ joinComma (o.tools.map (fun kv => kv.1)),
       by simp⟩
  · rw [hroute]
    exact containsSub_of_infix
      ⟨cs ("ERROR: Unknown subenvironment '") ++ a.subenvironment ++
        cs ("'. Available: "), [], by simp⟩

/-- An action naming a tool absent from the probe registry. -/
def aUnknown : Aixi.Action :=
  { subenvironment := cs ("nope"), input_body := cs ("\x7b\x7d"),
    timestamp := dt0, reasoning := [] }

theorem c4_witness :
    regProbe.lookup aUnknown.subenvironment = none ∧
    routeToSubenvironment regProbe aUnknown =
      cs ("ERROR: Unknown subenvironment 'nope'. Available: probe") ∧
    ((runMain oDemo (cs ("const")) (cs ("docs")) 2).2).length = 2 * 2 := by
  have h := c4_unknown_tool oDemo aUnknown (initState (cs ("const")))
    (cs ("const")) (cs ("docs")) dt0 2 (by rfl)
    (by intro i _; exact ⟨rfl, by rfl⟩)
  exact ⟨by rfl, by rfl, h.2.2.2.2.2⟩

/-!  ### C8 — interrupts inside a cycle -/

/-- C8 counterexample: a run interrupted between `add_action` and
`add_percept` of cycle 1 ends with exactly one history entry — an Action
with no corresponding Percept — so a cycle can be left half-committed. -/
theorem c8_cex :
    (((runMain { oDemo with
        interrupt := fun k => if k = 1 then Stage.postAction else Stage.calm }
      (cs ("const")) (cs ("docs")) 3).2).length = 1) ∧
    (((runMain { oDemo with
        interrupt := fun k => if k = 1 then Stage.postAction else Stage.calm }
      (cs ("const")) (cs ("docs")) 3).2).countP
        (fun e => match e with | Entry.percept _ => true | _ => false) = 0) := by
  exact ⟨by rfl, by rfl⟩

/-- C8 as amended: `main` appends the Action *before* dispatch+evaluate.  A
cycle that ends in selector failure or a pre-action interrupt records
neither entry, but an interrupt or uncaught exception striking after
`add_action` and before `add_percept` halts the run with that cycle's
Action recorded and no Percept: after `n` clean cycles the log is the `2n`
paired entries plus one trailing dangling Action. -/
theorem c8_post_action_interrupt (o : Oracle) (c docs : List Char)
    (n M : Nat) (a : Aixi.Action) (hM : n < M)
    (hclean : ∀ i, i < n →
      o.interrupt (1 + i) = Stage.calm ∧ (selResult o (1 + i)).isSome = true)
    (hint : o.interrupt (1 + n) = Stage.postAction)
    (hsel : selResult o (1 + n) = some a) :
    ∃ tail, (runMain o c docs M).2 = tail ++ [Entry.action a] ∧
      tail.length = 2 * n := by
  obtain ⟨st2, tail, heq, hlen, _⟩ :=
    runLoop_clean o c docs n (M - n) 1 (initState c) [] hclean
  have hM2 : n + (M - n) = M := by omega
  obtain ⟨j, hj⟩ : ∃ j, M - n = j + 1 := ⟨M - n - 1, by omega⟩
  refine ⟨tail, ?_, hlen⟩
  unfold runMain
  rw [← hM2, heq, hj, runLoop, hint]
  rw [if_neg (by simp : ¬ (Stage.postAction = Stage.preAction))]
  rw [chooseActionAt_ok _ c docs hsel]
  simp

/-- `oDemo` with an interrupt striking inside cycle 2, after `add_action`. -/
def oPost2 : Oracle :=
  { oDemo with interrupt := fun k => if k = 2 then Stage.postAction else Stage.calm }

/-- The action `respDemo` parses to. -/
def aDemoParsed : Aixi.Action :=
  { subenvironment := cs ("probe"), input_body := cs ("\x7b\x7d"),
    timestamp := dt0, reasoning := cs ("ok") }

theorem c8_witness :
    oPost2.interrupt 2 = Stage.postAction ∧
    ∃ tail,
      (runMain oPost2 (cs ("const")) (cs ("docs")) 4).2 =
        tail ++ [Entry.action aDemoParsed] ∧
      tail.length = 2 * 1 := by
  refine ⟨rfl, ?_⟩
  exact c8_post_action_interrupt oPost2
    (cs ("const")) (cs ("docs")) 1 4 aDemoParsed (by omega)
    (by intro i hi; interval_cases i; exact ⟨rfl, by rfl⟩) rfl (by rfl)

/-!  ### C9 — serialization round trips -/

theorem charDigit_digitChar {d : Nat} (h : d < 10) :
    charDigit (digitChar d) = some d := by
  interval_cases d <;> decide

theorem readNum_padNum : ∀ (w acc n : Nat) (rest : List Char), n < 10 ^ w →
    readNum w acc (padNum w n ++ rest) = some (acc * 10 ^ w + n, rest) := by
  intro w
  induction w with
  | zero =>
    intro acc n rest h
    have hn : n = 0 := by simpa using h
    subst hn
    simp [padNum, readNum]
  | succ w ih =>
    intro acc n rest h
    have hq : n / 10 ^ w < 10 := by
      rw [Nat.div_lt_iff_lt_mul (Nat.pos_pow_of_pos w (by norm_num))]
      rw [pow_succ] at h
      omega
    rw [padNum, List.cons_append, readNum, charDigit_digitChar hq]
    dsimp only
    rw [ih (acc * 10 + n / 10 ^ w) (n % 10 ^ w) rest
      (Nat.mod_lt n (Nat.pos_pow_of_pos w (by norm_num)))]
    have harith : (acc * 10 + n / 10 ^ w) * 10 ^ w + n % 10 ^ w =
        acc * 10 ^ (w + 1) + n := by
      have hdm := Nat.div_add_mod n (10 ^ w)
      calc (acc * 10 + n / 10 ^ w) * 10 ^ w + n % 10 ^ w
          = acc * (10 ^ w * 10) + (10 ^ w * (n / 10 ^ w) + n % 10 ^ w) := by ring
        _ = acc * (10 ^ w * 10) + n := by rw [hdm]
        _ = acc * 10 ^ (w + 1) + n := by rw [pow_succ]
    rw [harith]

theorem readNum_padNum_nil (w acc n : Nat) (h : n < 10 ^ w) :
    readNum w acc (padNum w n) = some (acc * 10 ^ w + n, []) := by
  have hx := readNum_padNum w acc n [] h
  rwa [List.append_nil] at hx

theorem fromIso_iso (d : DateTime) (h : d.valid) :
    DateTime.fromIso d.iso = some d := by
  obtain ⟨h1, h2, h3, h4, h5, h6, h7, h8, h9, h10⟩ := h
  unfold DateTime.iso DateTime.fromIso
  simp only [List.append_assoc]
  rw [readNum_padNum 4 0 d.year _ (by omega)]
  dsimp only
  rw [List.cons_append, expectChar, if_pos rfl]
  dsimp only
  rw [readNum_padNum 2 0 d.month _ (by omega)]
  dsimp only
  rw [List.cons_append, expectChar, if_pos rfl]
  dsimp only
  rw [readNum_padNum 2 0 d.day _ (by omega)]
  dsimp only
  rw [List.cons_append, expectChar, if_pos rfl]
  dsimp only
  rw [readNum_padNum 2 0 d.hour _ (by omega)]
  dsimp only
  rw [List.cons_append, expectChar, if_pos rfl]
  dsimp only
  rw [readNum_padNum 2 0 d.minute _ (by omega)]
  dsimp only
  rw [List.cons_append, expectChar, if_pos rfl]
  dsimp only
  by_cases hus : d.microsecond = 0
  · rw [if_pos hus, List.append_nil]
    rw [readNum_padNum_nil 2 0 d.second (by omega)]
    dsimp only
    simp only [Nat.zero_mul, Nat.zero_add]
    rw [← hus]
  · rw [if_neg hus]
    rw [readNum_padNum 2 0 d.second _ (by omega)]
    dsimp only
    rw [if_pos rfl]
    rw [readNum_padNum_nil 6 0 d.microsecond (by omega)]
    dsimp only
    simp only [Nat.zero_mul, Nat.zero_add]

/-- C9: `from_dict ∘ to_dict` is the identity on Actions and on Percepts
(whose timestamps, always set by `__post_init__`, carry valid `datetime`
field values). -/
theorem c9_roundtrip (a : Aixi.Action) (pp : Aixi.Percept)
    (h1 : a.timestamp.valid) (h2 : pp.timestamp.valid)
    (h3 : ∀ ar ∈ pp.action_reference, ar.timestamp.valid) :
    Aixi.Action.from_dict (Aixi.Action.to_dict a) = some a ∧
    Aixi.Percept.from_dict (Aixi.Percept.to_dict pp) = some pp := by
  have hact : ∀ b : Aixi.Action, b.timestamp.valid →
      Aixi.Action.from_dict (Aixi.Action.to_dict b) = some b := by
    intro b hb
    unfold Aixi.Action.from_dict Aixi.Action.to_dict
    rw [fromIso_iso _ hb]
  refine ⟨hact a h1, ?_⟩
  unfold Aixi.Percept.from_dict Aixi.Percept.to_dict
  cases har : pp.action_reference with
  | none =>
    dsimp only [Option.map]
    rw [fromIso_iso _ h2]
    dsimp only
    rw [← har]
  | some ar =>
    have hv : ar.timestamp.valid := h3 ar (by simp [Option.mem_def, har])
    dsimp only [Option.map]
    rw [hact ar hv]
    dsimp only
    rw [fromIso_iso _ h2]
    dsimp only
    rw [← har]

theorem c9_witness :
    dt0.valid ∧
    Aixi.Action.from_dict (Aixi.Action.to_dict aOld) = some aOld ∧
    Aixi.Percept.from_dict (Aixi.Percept.to_dict pOld) = some pOld := by
  refine ⟨by decide, ?_, ?_⟩
  · exact (c9_roundtrip aOld pOld (by decide) (by decide)
      (by intro ar har; simp [pOld] at har; subst har; decide)).1
  · exact (c9_roundtrip aOld pOld (by decide) (by decide)
      (by intro ar har; simp [pOld] at har; subst har; decide)).2

/-!  ### C2 — parsing a well-formed Selector response -/

/-- The two-section response format the Ideator prompt prescribes, assembled
from a reasoning text `r`, a tool name `x`, and a JSON payload text `j`. -/
def mkResponse (r x j : List Char) : List Char :=
  cs ("REASONING:\n") ++ r ++ cs ("\nACTION:\nsubenvironment: ") ++ x ++
    cs ("\ninput_body: ") ++ j

theorem pyStrip_block {core : List Char}
    (hhead : core.dropWhile isPySpace = core)
    (htail : core.reverse.dropWhile isPySpace = core.reverse) :
    pyStrip ('\n' :: core) = core := by
  unfold pyStrip
  rw [List.dropWhile_cons, if_pos (by rfl), hhead, htail, List.reverse_reverse]

theorem dropWhile_rev_of_last {p : Char → Bool} {u : List Char} (w : List Char)
    (h0 : u ≠ []) (hu : u.reverse.dropWhile p = u.reverse) :
    ((w ++ u).reverse).dropWhile p = (w ++ u).reverse := by
  obtain ⟨c, cs2, hc⟩ : ∃ c cs2, u.reverse = c :: cs2 := by
    cases hur : u.reverse with
    | nil =>
      exfalso
      apply h0
      have := congrArg List.reverse hur
      simpa using this
    | cons c cs2 => exact ⟨c, cs2, rfl⟩
  rw [hc] at hu
  have hcp : p c = false := dropWhile_head_false hu
  rw [List.reverse_append, hc, List.cons_append]
  exact dropWhile_cons_false hcp

theorem searchLineTail_hit (lit rest g : List Char) (hlit : lit ≠ [])
    (hg : lineGroupAt rest = some g) :
    searchLineTail lit (lit ++ rest) = some g := by
  cases lit with
  | nil => exact absurd rfl hlit
  | cons c cs2 =>
    rw [List.cons_append, searchLineTail]
    rw [if_pos (show leadsWith (c :: cs2) (c :: (cs2 ++ rest)) = true from
      leadsWith_self_append (c :: cs2) rest)]
    have hd : List.drop (c :: cs2).length (c :: (cs2 ++ rest)) = rest := by
      simp only [List.length_cons, List.drop_succ_cons]
      exact List.drop_left cs2 rest
    rw [hd, hg]

theorem lineGroupAt_ws_line (x Z : List Char) (hx0 : x ≠ [])
    (hx1 : x.dropWhile isPySpace = x)
    (hx3 : ∀ ch ∈ x, ch ≠ '\n') :
    lineGroupAt (' ' :: (x ++ ('\n' :: Z))) = some x := by
  unfold lineGroupAt
  obtain ⟨hx, x2, hxc⟩ : ∃ hx x2, x = hx :: x2 := by
    cases x with
    | nil => exact absurd rfl hx0
    | cons a b => exact ⟨a, b, rfl⟩
  subst hxc
  have hxf : isPySpace hx = false := dropWhile_head_false hx1
  have htw : ((' ' :: ((hx :: x2) ++ ('\n' :: Z))).takeWhile isPySpace) = [' '] := by
    rw [List.takeWhile_cons, if_pos (by rfl)]
    rw [List.cons_append, List.takeWhile_cons, if_neg (by simp [hxf])]
  rw [htw]
  rw [if_pos (by
    simp only [List.length_cons, List.length_append, List.length_nil]
    omega)]
  rw [show (' ' :: ((hx :: x2) ++ ('\n' :: Z))).drop ([' '].length) =
      (hx :: x2) ++ ('\n' :: Z) from rfl]
  unfold takeLine
  rw [takeWhile_append_cons (hx :: x2) Z
    (fun y hy => decide_eq_true (hx3 y hy)) (by simp)]

/-- C2: for every model response of the prescribed two-section shape — a
REASONING block (free of the `ACTION:` marker), then `subenvironment: X` on
its own line and `input_body: J` with `J` accepted by `json.loads` —
`_parse_response` succeeds and the resulting Action names tool `X` and
carries payload `J` (whose JSON parse is the given object).  The hygiene
hypotheses say `X` is a nonempty single-line token and `J` is stripped of
outer whitespace, as the prescribed format produces. -/
theorem c2_parse_wellformed (r x j : List Char) (ts : DateTime) (v : Json)
    (hr : containsSub (cs ("ACTION:"))
      (cs ("REASONING:\n") ++ (r ++ cs ("\nACTION"))) = false)
    (hx0 : x ≠ [])
    (hx1 : x.dropWhile isPySpace = x)
    (hx2 : x.reverse.dropWhile isPySpace = x.reverse)
    (hx3 : ∀ ch ∈ x, ch ≠ '\n')
    (hj1 : j.dropWhile isPySpace = j)
    (hj2 : j.reverse.dropWhile isPySpace = j.reverse)
    (hib : containsSub (cs ("input_body:"))
      (cs ("subenvironment: ") ++ (x ++ cs ("\ninput_body"))) = false)
    (hjp : jsonParse j = some v) :
    ∃ a, parseResponse ts (mkResponse r x j) = Except.ok a ∧
      a.subenvironment = x ∧ a.input_body = j ∧ jsonParse a.input_body = some v := by
  have hj0 : j ≠ [] := by
    intro he
    rw [he] at hjp
    exact Option.noConfusion ((rfl : jsonParse ([] : List Char) = none).symm.trans hjp)
  have harg : mkResponse r x j =
      (cs ("REASONING:\n") ++ (r ++ cs ("\n"))) ++
        (cs ("ACTION:") ++
          (cs ("\nsubenvironment: ") ++ (x ++ (cs ("\ninput_body: ") ++ j)))) := by
    unfold mkResponse
    simp only [List.append_assoc]
    rfl
  have hh : splitAfterFirst (cs ("ACTION:"))
      ((cs ("REASONING:\n") ++ (r ++ cs ("\n"))) ++
        (cs ("ACTION:") ++
          (cs ("\nsubenvironment: ") ++ (x ++ (cs ("\ninput_body: ") ++ j))))) =
      some (cs ("\nsubenvironment: ") ++ (x ++ (cs ("\ninput_body: ") ++ j))) :=
    splitAfterFirst_hit _ _ (by decide)
      (by simp only [List.append_assoc]; exact hr)
  have hstrip : pyStrip (cs ("\nsubenvironment: ") ++ (x ++ (cs ("\ninput_body: ") ++ j))) =
      cs ("subenvironment: ") ++ (x ++ (cs ("\ninput_body: ") ++ j)) := by
    have hhead := dropWhile_cons_false (p := isPySpace) (c := 's')
      (l := cs ("ubenvironment: ") ++ (x ++ (cs ("\ninput_body: ") ++ j))) (by rfl)
    have htail : (cs ("subenvironment: ") ++ (x ++ (cs ("\ninput_body: ") ++ j))).reverse.dropWhile isPySpace =
        (cs ("subenvironment: ") ++ (x ++ (cs ("\ninput_body: ") ++ j))).reverse := by
      rw [show cs ("subenvironment: ") ++ (x ++ (cs ("\ninput_body: ") ++ j)) =
          (cs ("subenvironment: ") ++ (x ++ cs ("\ninput_body: "))) ++ j from by
        simp only [List.append_assoc]]
      exact dropWhile_rev_of_last _ hj0 hj2
    exact pyStrip_block hhead htail
  have hsearch : searchLineTail (cs ("subenvironment:"))
      (cs ("subenvironment: ") ++ (x ++ (cs ("\ninput_body: ") ++ j))) = some x := by
    have hline := lineGroupAt_ws_line x (cs ("input_body: ") ++ j) hx0 hx1 hx3
    exact searchLineTail_hit (cs ("subenvironment:"))
      (' ' :: (x ++ ('\n' :: (cs ("input_body: ") ++ j)))) x (by decide) hline
  have hsp2 : splitAfterFirst (cs ("input_body:"))
      (cs ("subenvironment: ") ++ (x ++ (cs ("\ninput_body: ") ++ j))) =
      some (' ' :: j) := by
    have hh2 := splitAfterFirst_hit
      (cs ("subenvironment: ") ++ (x ++ cs ("\n"))) (' ' :: j)
      (show cs ("input_body:") ≠ [] by decide)
      (by simp only [List.append_assoc]; exact hib)
    rw [show (cs ("subenvironment: ") ++ (x ++ cs ("\n"))) ++
        (cs ("input_body:") ++ (' ' :: j)) =
        cs ("subenvironment: ") ++ (x ++ (cs ("\ninput_body: ") ++ j)) from by
      simp only [List.append_assoc]
      rfl] at hh2
    exact hh2
  have hpsj : pyStrip (' ' :: j) = j := by
    unfold pyStrip
    rw [List.dropWhile_cons, if_pos (by rfl), hj1, hj2, List.reverse_reverse]
  have hpsx : pyStrip x = x := pyStrip_eq_self hx1 hx2
  rw [harg]
  unfold parseResponse
  rw [hh]
  dsimp only
  rw [hstrip, hsearch]
  dsimp only
  rw [hsp2]
  dsimp only
  rw [hpsx, hpsj, hjp]
  exact ⟨_, rfl, rfl, rfl, hjp⟩

theorem c2_witness :
    jsonParse (cs ("\x7b\"action\": \"list_files\", \"path\": \".\"\x7d")) =
      some (Json.obj [(cs ("action"), Json.str (cs ("list_files"))),
                      (cs ("path"), Json.str (cs (".")))]) ∧
    ∃ a, parseResponse dt0 (mkResponse (cs ("I will list files."))
        (cs ("file_system"))
        (cs ("\x7b\"action\": \"list_files\", \"path\": \".\"\x7d"))) = Except.ok a ∧
      a.subenvironment = cs ("file_system") ∧
      a.input_body = cs ("\x7b\"action\": \"list_files\", \"path\": \".\"\x7d") ∧
      jsonParse a.input_body =
        some (Json.obj [(cs ("action"), Json.str (cs ("list_files"))),
                        (cs ("path"), Json.str (cs (".")))]) := by
  refine ⟨by rfl, ?_⟩
  exact c2_parse_wellformed (cs ("I will list files.")) (cs ("file_system"))
    (cs ("\x7b\"action\": \"list_files\", \"path\": \".\"\x7d")) dt0
    (Json.obj [(cs ("action"), Json.str (cs ("list_files"))),
               (cs ("path"), Json.str (cs (".")))])
    (by rfl) (by decide) (by rfl) (by rfl) (by decide) (by rfl) (by rfl)
    (by rfl) (by rfl)

end Aixi
